import Mathlib

set_option linter.unreachableTactic false
set_option linter.unusedTactic false
set_option linter.unnecessarySimpa false

/-!
Shallow embedding of src/runtime/container_start.go (rancher/agent).
External collaborators (the docker engine, the volume backend, utils.*)
are modelled as oracles: records of deterministic responses, so that the
control flow of ContainerStart / createContainer / setupPorts /
setupNonRancherVolumes / isRunning can be stated and proved as functions
of the oracle.  Error-string matching in the Go source
(strings.Contains(err.Error(), nameInuseError), client.IsErrImageNotFound,
client.IsErrContainerNotFound) is modelled structurally by error kinds.
-/

namespace ContainerStartGo

/-- Go strings.Split(s, sep) for a single-character separator: splits around
each occurrence of the separator; on the empty string it returns one empty
part (never the empty list, since the separator is non-empty). -/
def goSplit (sep : Char) : List Char → List (List Char)
  | [] => [[]]
  | c :: cs =>
    if c = sep then [] :: goSplit sep cs
    else
      match goSplit sep cs with
      | [] => [[c]]
      | p :: ps => (c :: p) :: ps

/-- Splits off the part of the list before the first occurrence of the
separator, together with the remainder after it; none when absent. -/
def breakAt (sep : Char) : List Char → Option (List Char × List Char)
  | [] => none
  | c :: cs =>
    if c = sep then some ([], cs)
    else (breakAt sep cs).map (fun p => (c :: p.1, p.2))

/-- Go strings.SplitN(s, sep, n) for a single-character separator and n > 0:
at most n parts, the last part containing the unsplit remainder. -/
def goSplitN (sep : Char) : Nat → List Char → List (List Char)
  | 0, _ => []
  | 1, l => [l]
  | n + 2, l =>
    match breakAt sep l with
    | none => [l]
    | some (a, b) => a :: goSplitN sep (n + 1) b

/-- strings.SplitN(volume, ":", 3) from setupNonRancherVolumes. -/
def splitN3 (s : String) : List String :=
  (goSplitN ':' 3 s.data).map (fun l => String.mk l)

/-- The engine's name-in-use error text (constant nameInuseError in the Go
source), detected there by substring matching on the wrapped error. -/
def nameInuseError : String :=
  "You have to remove (or rename) that container to be able to reuse that name"

/-- The pull-mode label key (constant PullImageLabels in the Go source). -/
def pullImageLabels : String := "io.rancher.container.pull_image"

/-- The identity label key forced onto the engine config (utils.UUIDLabel,
declared outside this file's source). -/
def uuidLabel : String := "io.rancher.container.uuid"

/-- One declared public endpoint of the container specification
(v3.PublicEndpoint, the fields read by setupPorts). -/
structure PublicEndpoint where
  privatePort : Int
  publicPort : Int
  protocol : String
  bindIpAddress : String
deriving DecidableEq

/-- One entry of a nat.PortMap value list (nat.PortBinding). -/
structure PortBinding where
  hostIP : String
  hostPort : String
deriving DecidableEq

/-- fmt.Sprintf("%v/%v", endpoint.PrivatePort, endpoint.Protocol). -/
def portKey (privatePort : Int) (protocol : String) : String :=
  toString privatePort ++ "/" ++ protocol

/-- The binding built for one endpoint: HostIP from BindIpAddress, HostPort
from strconv.Itoa(int(endpoint.PublicPort)). -/
def bindingOf (ep : PublicEndpoint) : PortBinding :=
  ⟨ep.bindIpAddress, toString ep.publicPort⟩

/-- The body of setupPorts' loop: an endpoint with a non-zero private port
exposes its port and appends its binding under its port/protocol key; a
zero private port changes nothing. -/
def portStep (acc : (String → Bool) × (String → List PortBinding)) (ep : PublicEndpoint) :
    (String → Bool) × (String → List PortBinding) :=
  if ep.privatePort ≠ 0 then
    let bind := portKey ep.privatePort ep.protocol
    (fun p => if p = bind then true else acc.1 p,
     fun p => if p = bind then acc.2 p ++ [bindingOf ep] else acc.2 p)
  else acc

/-- setupPorts: folds the declared endpoints into the exposed-port set and
the port-binding map.  Go maps are modelled as functions with defaults
(false / []); absent-key insertion and append coincide under that view, so
the code's singleton-or-append branch is a plain append. -/
def setupPorts (eps : List PublicEndpoint) : (String → Bool) × (String → List PortBinding) :=
  eps.foldl portStep (fun _ => false, fun _ => [])

/-- The endpoints that contribute to key k: non-zero private port and
matching port/protocol. -/
def contributes (k : String) (ep : PublicEndpoint) : Bool :=
  ep.privatePort != 0 && (portKey ep.privatePort ep.protocol == k)

/-- A volume descriptor: its name and the verdict of IsRancherVolume on it
(IsRancherVolume is declared outside this file's source). -/
structure VolumeM where
  name : String
  isRancher : Bool
deriving DecidableEq

/-- The set rancherManagedVolumeNames built at the top of
setupNonRancherVolumes. -/
def managedNames (vols : List VolumeM) : List String :=
  (vols.filter (fun v => v.isRancher)).map (fun v => v.name)

/-- One call to getDockerRoot against an explicit cache state: a cached root
is returned without querying; otherwise the engine's Info root is queried
(counted), stored and returned.  Models the sync.Once-guarded global. -/
def getDockerRootCall (infoRoot : String) : Option String → String × Option String × Nat
  | some r => (r, some r, 0)
  | none => (infoRoot, some infoRoot, 1)

/-- Runs n successive getDockerRoot calls from a cache state, collecting the
returned roots, the final state and the total number of engine queries. -/
def runCalls (infoRoot : String) : Nat → Option String → List String × Option String × Nat
  | 0, st => ([], st, 0)
  | n + 1, st =>
    let c := getDockerRootCall infoRoot st
    let rest := runCalls infoRoot n c.2.1
    (c.1 :: rest.1, rest.2.1, c.2.2 + rest.2.2)

/-- Go map-key insertion for the volumesMap set (idempotent). -/
def insertKey (m : List String) (k : String) : List String :=
  if m.contains k then m else m ++ [k]

/-- Accumulator threaded through setupNonRancherVolumes' DataVolumes loop:
the volumesMap keys, the binds list, the docker-root cache state, and the
number of engine root queries performed. -/
structure VolAcc where
  volumesMap : List String
  binds : List String
  cache : Option String
  queries : Nat
deriving DecidableEq

/-- The body of setupNonRancherVolumes' loop over containerSpec.DataVolumes:
split on ":", skip rancher-managed sources, record anonymous-volume targets,
default the mode to "rw", rewrite the literal /var/lib/docker self-bind to
the resolved docker root when that differs, and append the bind string. -/
def volStep (managed : List String) (infoRoot : String) (acc : VolAcc) (v : String) : VolAcc :=
  let parts := splitN3 v
  if managed.contains (parts.headD "") then acc
  else
    match parts with
    | [] => acc
    | [p0] => { acc with volumesMap := insertKey acc.volumesMap p0 }
    | p0 :: p1 :: rest =>
      let mode := match rest with
        | m :: _ => m
        | [] => "rw"
      let acc1 := { acc with volumesMap := insertKey acc.volumesMap p1 }
      if p0 = "/var/lib/docker" ∧ p1 = "/var/lib/docker" then
        let c := getDockerRootCall infoRoot acc1.cache
        let root := c.1
        if root ≠ "/var/lib/docker" then
          { volumesMap := insertKey acc1.volumesMap root,
            binds := acc1.binds ++
              [root ++ ":" ++ p1 ++ ":" ++ mode, root ++ ":" ++ root ++ ":" ++ mode],
            cache := c.2.1,
            queries := acc1.queries + c.2.2 }
        else
          { acc1 with
            binds := acc1.binds ++ [p0 ++ ":" ++ p1 ++ ":" ++ mode],
            cache := c.2.1,
            queries := acc1.queries + c.2.2 }
      else
        { acc1 with binds := acc1.binds ++ [p0 ++ ":" ++ p1 ++ ":" ++ mode] }

/-- The DataVolumes loop of setupNonRancherVolumes, from a given docker-root
cache state. -/
def processDataVolumes (vols : List VolumeM) (infoRoot : String) (dvs : List String)
    (st : Option String) : VolAcc :=
  dvs.foldl (volStep (managedNames vols) infoRoot) ⟨[], [], st, 0⟩

/-- The DataVolumesFrom loop of setupNonRancherVolumes: idsMap is a Go map
(missing keys yield ""); resolvable references are appended in order, and
hostConfig.VolumesFrom (fresh, hence nil ≈ []) is only assigned when the
accumulated list is non-empty. -/
def computeVolumesFrom (idsMap : String → String) (dvf : List String) : List String :=
  let containers := dvf.foldl (fun acc v => if idsMap v ≠ "" then acc ++ [idsMap v] else acc) []
  if containers.length > 0 then containers else []

/-- Result kinds of dockerContainerCreate errors that the source
distinguishes: client.IsErrImageNotFound, the name-in-use message, other. -/
inductive EngErr where
  | imageNotFound
  | nameInUse
  | other
deriving DecidableEq

instance {ε α : Type} [DecidableEq ε] [DecidableEq α] : DecidableEq (Except ε α) := fun a b =>
  match a, b with
  | .error e, .error f =>
    if h : e = f then .isTrue (h ▸ rfl) else .isFalse (fun hh => h (Except.error.inj hh))
  | .ok x, .ok y =>
    if h : x = y then .isTrue (h ▸ rfl) else .isFalse (fun hh => h (Except.ok.inj hh))
  | .error _, .ok _ => .isFalse (fun hh => Except.noConfusion hh)
  | .ok _, .error _ => .isFalse (fun hh => Except.noConfusion hh)

/-- Result of one dockerContainerCreate call: the created id or an error. -/
abbrev CreateRes := Except EngErr String

/-- Errors of utils.FindContainer: utils.IsContainerNotFoundError, or any
other lookup failure (with its message). -/
inductive FindErr where
  | notFound
  | other (msg : String)
deriving DecidableEq

/-- Result of utils.FindContainer: the container id, or an error (a
not-found error leaves the id empty). -/
abbrev FindRes := Except FindErr String

/-- Result of dockerClient.ContainerInspect. -/
inductive InspectRes where
  | ok (running restarting : Bool)
  | notFound
  | err (msg : String)
deriving DecidableEq

/-- The deterministic engine/collaborator oracle a single ContainerStart
invocation runs against: results of setupRancherFlexVolume, the rest of
setupContainerSpec, both FindContainer flavours, DoInstancePull, the first
and the retried dockerContainerCreate, ImagePull, ContainerStart (per id)
and RemoveContainer (per id). -/
structure Engine where
  flexMounts : Except Unit (List String)
  specOk : Bool
  findCached : FindRes
  findForced : FindRes
  instancePullOk : Bool
  create1 : CreateRes
  imagePullOk : Bool
  create2 : CreateRes
  startFails : String → Bool
  removeOk : String → Bool

/-- Observable side-effecting calls issued to the collaborators, in order. -/
inductive Event where
  | instancePull (cred : String)
  | imagePull (cred : String)
  | create
  | findC (force : Bool)
  | start (id : String)
  | remove (id : String)
  | unmountFlex
deriving DecidableEq

/-- Errors createContainer can return, by provenance. -/
inductive CCErr where
  | pullInstanceFailed
  | deleted (msg : String)
  | pullImageFailed
  | createFailed (k : EngErr)
deriving DecidableEq

/-- The outer orchestration's test strings.Contains(err.Error(),
nameInuseError), structurally: only a create failure of that kind carries
the engine's name-in-use message. -/
def isNameInUse : CCErr → Bool
  | .createFailed .nameInUse => true
  | _ => false

/-- Errors ContainerStart can return, by provenance. -/
inductive CSErr where
  | uuidParse
  | flexSetupFailed
  | specFailed
  | lookupFailed
  | creationFailed (e : CCErr)
  | startFailed
  | removeFailed
deriving DecidableEq

/-- The fields of the v3.Container specification the orchestration reads;
labels is the Go map (missing keys yield ""). -/
structure ContainerSpecM where
  uuid : String
  name : String
  externalId : String
  registryCredentialId : String
  labels : String → String

/-- Config labels after setupLabels: spec labels copied, identity label
force-set. -/
def mergedLabels (spec : ContainerSpecM) : String → String :=
  fun k => if k = uuidLabel then spec.uuid else spec.labels k

/-- Credential selection in ContainerStart: first credential whose id equals
the spec's RegistryCredentialId; the empty credential otherwise. -/
def selectCredential (creds : List (String × String)) (rid : String) : String :=
  match creds.find? (fun c => c.1 = rid) with
  | some c => c.2
  | none => ""

/-- createContainer: optional always-pull (DoInstancePull), the
deleted-from-host rejection on a non-empty ExternalId, the create call, and
on an image-not-found create error one ImagePull followed by exactly one
retried create. -/
def createContainerM (e : Engine) (spec : ContainerSpecM) (cred : String) :
    Except CCErr String × List Event :=
  let always := mergedLabels spec pullImageLabels = "always"
  let pullEvs : List Event := if always then [.instancePull cred] else []
  if always ∧ ¬e.instancePullOk then (.error .pullInstanceFailed, pullEvs)
  else if spec.externalId ≠ "" then
    (.error (.deleted ("Container " ++ spec.externalId ++ " has been deleted from the host")),
     pullEvs)
  else
    match e.create1 with
    | .ok id => (.ok id, pullEvs ++ [.create])
    | .error .imageNotFound =>
      if e.imagePullOk then
        match e.create2 with
        | .ok id => (.ok id, pullEvs ++ [.create, .imagePull cred, .create])
        | .error k => (.error (.createFailed k), pullEvs ++ [.create, .imagePull cred, .create])
      else (.error .pullImageFailed, pullEvs ++ [.create, .imagePull cred])
    | .error k => (.error (.createFailed k), pullEvs ++ [.create])

/-- The start call and its compensation: on failure, a container created by
this call (created flag) is removed; a remove failure replaces the error. -/
def startPhase (e : Engine) (id : String) (created : Bool) (evs : List Event) :
    Except CSErr String × List Event :=
  if e.startFails id then
    if created then
      if e.removeOk id then (.error .startFailed, evs ++ [.start id, .remove id])
      else (.error .removeFailed, evs ++ [.start id, .remove id])
    else (.error .startFailed, evs ++ [.start id])
  else (.ok id, evs ++ [.start id])

/-- Re-resolution after createContainer yielded no id: a forced (non-cached)
FindContainer, whose id (empty on not-found) is adopted and started with the
created flag set — exactly as in the source. -/
def refindAndStart (e : Engine) (evs : List Event) : Except CSErr String × List Event :=
  match e.findForced with
  | .error (.other _) => (.error .lookupFailed, evs ++ [.findC true])
  | .error .notFound => startPhase e "" true (evs ++ [.findC true])
  | .ok cid => startPhase e cid true (evs ++ [.findC true])

/-- The create-if-absent path of ContainerStart (taken when the cached
lookup produced no id): create, tolerate only the name-in-use error, adopt
by forced re-lookup when no id came back, and start with the created flag
set. -/
def createPathM (e : Engine) (spec : ContainerSpecM) (creds : List (String × String)) :
    Except CSErr String × List Event :=
  let cred := selectCredential creds spec.registryCredentialId
  let cr := createContainerM e spec cred
  let evs0 := [Event.findC false] ++ cr.2
  match cr.1 with
  | .error ce =>
    if isNameInUse ce then refindAndStart e evs0
    else (.error (.creationFailed ce), evs0)
  | .ok newID =>
    if newID = "" then refindAndStart e evs0
    else startPhase e newID true evs0

/-- ContainerStart after the flex-volume setup succeeded: spec translation,
cached lookup (a not-found error is benign and leaves the id empty),
create-if-absent, then start with compensation; a container found by the
cached lookup is started with the created flag clear. -/
def afterFlexM (e : Engine) (spec : ContainerSpecM) (creds : List (String × String)) :
    Except CSErr String × List Event :=
  if ¬e.specOk then (.error .specFailed, [])
  else
    match e.findCached with
    | .error (.other _) => (.error .lookupFailed, [.findC false])
    | .error .notFound => createPathM e spec creds
    | .ok i =>
      if i = "" then createPathM e spec creds
      else startPhase e i false [.findC false]

/-- ContainerStart: the (unreachable) UUID-split guard, flex-volume setup —
whose own failure returns before the unwind defer is registered — and the
deferred unmountRancherFlexVolume appended on every later error path and
suppressed on success. -/
def containerStartM (e : Engine) (spec : ContainerSpecM) (creds : List (String × String)) :
    Except CSErr String × List Event :=
  if (goSplit '-' spec.uuid.data).length = 0 then (.error .uuidParse, [])
  else
    match e.flexMounts with
    | .error _ => (.error .flexSetupFailed, [])
    | .ok _ =>
      match afterFlexM e spec creds with
      | (.error er, evs) => (.error er, evs ++ [.unmountFlex])
      | (.ok id, evs) => (.ok id, evs)

/-- isRunning: empty id and inspect not-found both yield (false, false) with
no error; other inspect failures surface; running excludes restarting. -/
def isRunningM (inspect : String → InspectRes) (id : String) : Except String (Bool × Bool) :=
  if id = "" then .ok (false, false)
  else
    match inspect id with
    | .ok r s => .ok ((r && !s), s)
    | .notFound => .ok (false, false)
    | .err m => .error m

/-- IsContainerStarted: a cached lookup whose not-found error is benign,
then isRunning on the found id. -/
def isContainerStartedM (find : FindRes) (inspect : String → InspectRes) :
    Except String (Bool × Bool) :=
  match find with
  | .error .notFound => .ok (false, false)
  | .error (.other m) => .error m
  | .ok id => isRunningM inspect id

/-- A plain specification: no external id, no pull label, no credential. -/
def specPlain : ContainerSpecM :=
  { uuid := "u1", name := "web", externalId := "", registryCredentialId := "",
    labels := fun _ => "" }

/-- A specification with a non-empty ExternalId and the always-pull label. -/
def specExternal : ContainerSpecM :=
  { uuid := "u2", name := "web", externalId := "E", registryCredentialId := "",
    labels := fun k => if k = pullImageLabels then "always" else "" }

/-- Engine baseline: everything succeeds. -/
def engBase : Engine :=
  { flexMounts := .ok [], specOk := true,
    findCached := .error .notFound, findForced := .ok "X",
    instancePullOk := true, create1 := .ok "N",
    imagePullOk := true, create2 := .ok "Y",
    startFails := fun _ => false, removeOk := fun _ => true }

/-- Engine exhibiting the name-in-use race whose adopted container then
fails to start: initial lookup empty, create rejected with the name-in-use
error, forced lookup finds "X", start of "X" fails, removal succeeds. -/
def engRaceStartFail : Engine :=
  { engBase with create1 := .error .nameInUse, startFails := fun _ => true }

/-- Engine exhibiting the name-in-use race with a successful start. -/
def engRaceStartOk : Engine :=
  { engBase with create1 := .error .nameInUse }

/-- Engine whose managed-volume setup itself fails. -/
def engFlexFail : Engine :=
  { engBase with flexMounts := .error () }

/-- Engine rejecting the first create with image-not-found and then failing
the on-demand image pull. -/
def engPullFail : Engine :=
  { engBase with create1 := .error .imageNotFound, imagePullOk := false }

/-- Engine rejecting the first create with image-not-found, pulling
successfully, and failing the retried create as well. -/
def engRetryFail : Engine :=
  { engBase with create1 := .error .imageNotFound, create2 := .error .imageNotFound }

/-- Engine whose always-pull (DoInstancePull) fails. -/
def engInstancePullFail : Engine :=
  { engBase with instancePullOk := false }

lemma goSplit_ne_nil (sep : Char) (l : List Char) : goSplit sep l ≠ [] := by
  induction l with
  | nil => simp [goSplit]
  | cons c cs ih =>
    simp only [goSplit]
    split
    · simp
    · rcases h : goSplit sep cs with _ | ⟨p, ps⟩
      · exact absurd h ih
      · simp [h]

lemma mem_startPhase_events (e : Engine) (id : String) (created : Bool) (evs : List Event)
    (x : Event) :
    x ∈ (startPhase e id created evs).2 ↔
      x ∈ evs ∨ x = .start id ∨
        (x = .remove id ∧ e.startFails id = true ∧ created = true) := by
  by_cases hs : e.startFails id = true <;> by_cases hr : e.removeOk id = true <;>
    cases created <;>
      simp [startPhase, hs, hr] <;> tauto

lemma startPhase_res_ok (e : Engine) (id : String) (created : Bool) (evs : List Event)
    (h : e.startFails id = false) : (startPhase e id created evs).1 = .ok id := by
  simp [startPhase, h]

lemma startPhase_res_of_fail (e : Engine) (id : String) (created : Bool) (evs : List Event)
    (h : e.startFails id = true) :
    (startPhase e id created evs).1 = .error .startFailed ∨
      (startPhase e id created evs).1 = .error .removeFailed := by
  by_cases hr : e.removeOk id = true <;> cases created <;> simp [startPhase, h, hr]

lemma mem_createContainerM_events (e : Engine) (spec : ContainerSpecM) (cred : String)
    (x : Event) (hx : x ∈ (createContainerM e spec cred).2) :
    x = .instancePull cred ∨ x = .imagePull cred ∨ x = .create := by
  unfold createContainerM at hx
  by_cases h1 : mergedLabels spec pullImageLabels = "always" <;>
    by_cases h2 : e.instancePullOk = true <;>
      by_cases h3 : spec.externalId = "" <;>
        by_cases h4 : e.imagePullOk = true <;>
          rcases hc1 : e.create1 with k1 | i1 <;>
            rcases hc2 : e.create2 with k2 | i2 <;>
              first
              | (cases k1 <;> simp_all <;> tauto)
              | (simp_all <;> tauto)
              | simp_all

lemma containerStartM_eq (e : Engine) (spec : ContainerSpecM) (creds : List (String × String)) :
    containerStartM e spec creds =
      match e.flexMounts with
      | .error _ => (.error .flexSetupFailed, [])
      | .ok _ =>
        match afterFlexM e spec creds with
        | (.error er, evs) => (.error er, evs ++ [.unmountFlex])
        | (.ok id, evs) => (.ok id, evs) := by
  unfold containerStartM
  rw [if_neg]
  simpa using goSplit_ne_nil '-' spec.uuid.data

lemma unmountFlex_notMem_startPhase (e : Engine) (id : String) (created : Bool)
    (evs : List Event) (h : Event.unmountFlex ∉ evs) :
    Event.unmountFlex ∉ (startPhase e id created evs).2 := by
  rw [mem_startPhase_events]
  simp [h]

lemma unmountFlex_notMem_refindAndStart (e : Engine) (evs : List Event)
    (h : Event.unmountFlex ∉ evs) :
    Event.unmountFlex ∉ (refindAndStart e evs).2 := by
  unfold refindAndStart
  rcases hf : e.findForced with k | i
  · rcases k with _ | m
    · exact unmountFlex_notMem_startPhase _ _ _ _ (by simp [h])
    · simp [h]
  · exact unmountFlex_notMem_startPhase _ _ _ _ (by simp [h])

lemma unmountFlex_notMem_createPathM (e : Engine) (spec : ContainerSpecM)
    (creds : List (String × String)) :
    Event.unmountFlex ∉ (createPathM e spec creds).2 := by
  unfold createPathM
  have h0 : Event.unmountFlex ∉
      [Event.findC false] ++ (createContainerM e spec (selectCredential creds spec.registryCredentialId)).2 := by
    intro hm
    rcases List.mem_append.mp hm with hm | hm
    · simp at hm
    · rcases mem_createContainerM_events _ _ _ _ hm with h | h | h <;> simp at h
  rcases hcr : (createContainerM e spec (selectCredential creds spec.registryCredentialId)).1
    with ce | nid
  · simp only [hcr]
    split
    · exact unmountFlex_notMem_refindAndStart _ _ h0
    · exact h0
  · simp only [hcr]
    split
    · exact unmountFlex_notMem_refindAndStart _ _ h0
    · exact unmountFlex_notMem_startPhase _ _ _ _ h0

lemma unmountFlex_notMem_afterFlexM (e : Engine) (spec : ContainerSpecM)
    (creds : List (String × String)) :
    Event.unmountFlex ∉ (afterFlexM e spec creds).2 := by
  unfold afterFlexM
  by_cases hso : e.specOk = true
  · rcases hfc : e.findCached with k | i
    · rcases k with _ | m
      · simpa [hso] using unmountFlex_notMem_createPathM e spec creds
      · simp [hso]
    · by_cases hi : i = ""
      · simpa [hso, hi] using unmountFlex_notMem_createPathM e spec creds
      · simpa [hso, hi] using unmountFlex_notMem_startPhase e i false [Event.findC false] (by simp)
  · simp [hso]

lemma startPhase_fst (e : Engine) (id : String) (created : Bool) (evs : List Event) :
    (startPhase e id created evs).1 = .ok id ∨
      (startPhase e id created evs).1 = .error .startFailed ∨
        (startPhase e id created evs).1 = .error .removeFailed := by
  by_cases hs : e.startFails id = true <;> by_cases hr : e.removeOk id = true <;>
    cases created <;> simp [startPhase, hs, hr]

lemma refindAndStart_fst_ne_uuidParse (e : Engine) (evs : List Event) :
    (refindAndStart e evs).1 ≠ .error .uuidParse := by
  unfold refindAndStart
  rcases hf : e.findForced with k | i
  · rcases k with _ | m
    · rcases startPhase_fst e "" true (evs ++ [.findC true]) with h | h | h <;> simp [h]
    · simp
  · rcases startPhase_fst e i true (evs ++ [.findC true]) with h | h | h <;> simp [h]

lemma createPathM_fst_ne_uuidParse (e : Engine) (spec : ContainerSpecM)
    (creds : List (String × String)) :
    (createPathM e spec creds).1 ≠ .error .uuidParse := by
  unfold createPathM
  rcases hcr : (createContainerM e spec (selectCredential creds spec.registryCredentialId)).1
    with ce | nid
  · simp only [hcr]
    split
    · exact refindAndStart_fst_ne_uuidParse _ _
    · simp
  · simp only [hcr]
    split
    · exact refindAndStart_fst_ne_uuidParse _ _
    · rcases startPhase_fst e nid true (Event.findC false ::
        (createContainerM e spec (selectCredential creds spec.registryCredentialId)).2)
        with h | h | h <;> simp [h]

lemma afterFlexM_fst_ne_uuidParse (e : Engine) (spec : ContainerSpecM)
    (creds : List (String × String)) :
    (afterFlexM e spec creds).1 ≠ .error .uuidParse := by
  unfold afterFlexM
  by_cases hso : e.specOk = true
  · rcases hfc : e.findCached with k | i
    · rcases k with _ | m
      · simpa [hso] using createPathM_fst_ne_uuidParse e spec creds
      · simp [hso]
    · by_cases hi : i = ""
      · simpa [hso, hi] using createPathM_fst_ne_uuidParse e spec creds
      · rcases startPhase_fst e i false [Event.findC false] with h | h | h <;>
          simp [hso, hi, h]
  · simp [hso]

lemma containerStartM_fst_ne_uuidParse (e : Engine) (spec : ContainerSpecM)
    (creds : List (String × String)) :
    (containerStartM e spec creds).1 ≠ .error .uuidParse := by
  rw [containerStartM_eq]
  rcases e.flexMounts with u | bm
  · simp
  · rcases haf : afterFlexM e spec creds with ⟨res, evs⟩
    rcases res with er | id
    · have := afterFlexM_fst_ne_uuidParse e spec creds
      rw [haf] at this
      simpa using this
    · simp

lemma start_notMem_createEvents (e : Engine) (spec : ContainerSpecM) (cred : String)
    (c : String) : Event.start c ∉ Event.findC false :: (createContainerM e spec cred).2 := by
  intro hm
  rcases List.mem_cons.mp hm with h | h
  · simp at h
  · rcases mem_createContainerM_events _ _ _ _ h with h | h | h <;> simp at h

lemma startPhase_coupling (e : Engine) (id : String) (evs : List Event) (c : String)
    (hnst : Event.start c ∉ evs) (hst : Event.start c ∈ (startPhase e id true evs).2)
    (hf : e.startFails c = true) :
    Event.remove c ∈ (startPhase e id true evs).2 ∧
      ∃ er, (startPhase e id true evs).1 = .error er := by
  have hc : c = id := by
    rcases (mem_startPhase_events e id true evs _).mp hst with h | h | h
    · exact absurd h hnst
    · exact Event.start.inj h
    · simp at h
  subst hc
  refine ⟨(mem_startPhase_events e c true evs _).mpr (Or.inr (Or.inr ⟨rfl, hf, rfl⟩)), ?_⟩
  rcases startPhase_res_of_fail e c true evs hf with h | h <;> exact ⟨_, h⟩

lemma refindAndStart_coupling (e : Engine) (evs : List Event) (c : String)
    (hnst : Event.start c ∉ evs) (hst : Event.start c ∈ (refindAndStart e evs).2)
    (hf : e.startFails c = true) :
    Event.remove c ∈ (refindAndStart e evs).2 ∧
      ∃ er, (refindAndStart e evs).1 = .error er := by
  have hnst2 : Event.start c ∉ evs ++ [Event.findC true] := by simp [hnst]
  rcases hffd : e.findForced with k | i
  · rcases k with _ | m
    · simp only [refindAndStart, hffd] at hst ⊢
      exact startPhase_coupling e "" (evs ++ [Event.findC true]) c hnst2 hst hf
    · simp only [refindAndStart, hffd] at hst ⊢
      exact absurd hst hnst2
  · simp only [refindAndStart, hffd] at hst ⊢
    exact startPhase_coupling e i (evs ++ [Event.findC true]) c hnst2 hst hf

lemma createPathM_coupling (e : Engine) (spec : ContainerSpecM)
    (creds : List (String × String)) (c : String)
    (hst : Event.start c ∈ (createPathM e spec creds).2)
    (hf : e.startFails c = true) :
    Event.remove c ∈ (createPathM e spec creds).2 ∧
      ∃ er, (createPathM e spec creds).1 = .error er := by
  have hnst := start_notMem_createEvents e spec (selectCredential creds spec.registryCredentialId) c
  unfold createPathM at hst ⊢
  rcases hcr : (createContainerM e spec (selectCredential creds spec.registryCredentialId)).1
    with ce | nid
  · by_cases hni : isNameInUse ce = true
    · simp only [hcr, hni, if_true] at hst ⊢
      exact refindAndStart_coupling e _ c (by simpa using hnst) (by simpa using hst) hf
    · simp only [hcr, hni] at hst ⊢
      rw [if_neg (by simpa using hni)] at hst
      exact absurd hst (by simpa using hnst)
  · by_cases hn : nid = ""
    · simp only [hcr, hn, if_true] at hst ⊢
      exact refindAndStart_coupling e _ c (by simpa using hnst) (by simpa using hst) hf
    · simp only [hcr] at hst ⊢
      rw [if_neg hn] at hst ⊢
      exact startPhase_coupling e nid _ c (by simpa using hnst) hst hf

lemma afterFlexM_coupling (e : Engine) (spec : ContainerSpecM)
    (creds : List (String × String)) (c : String)
    (h0 : e.findCached = .error .notFound ∨ e.findCached = .ok "")
    (hst : Event.start c ∈ (afterFlexM e spec creds).2)
    (hf : e.startFails c = true) :
    Event.remove c ∈ (afterFlexM e spec creds).2 ∧
      ∃ er, (afterFlexM e spec creds).1 = .error er := by
  by_cases hso : e.specOk = true
  · rcases h0 with h0 | h0 <;> simp only [afterFlexM, h0, hso, not_true, if_false] at hst ⊢ <;>
      first
        | exact createPathM_coupling e spec creds c hst hf
        | (simp only [if_pos rfl] at hst ⊢; exact createPathM_coupling e spec creds c hst hf)
        | (simp at hst ⊢; exact createPathM_coupling e spec creds c hst hf)
  · simp [afterFlexM, hso] at hst

lemma afterFlexM_found_no_remove (e : Engine) (spec : ContainerSpecM)
    (creds : List (String × String)) (i : String)
    (hfc : e.findCached = .ok i) (hi : i ≠ "") (x : String) :
    Event.remove x ∉ (afterFlexM e spec creds).2 := by
  by_cases hso : e.specOk = true
  · simp only [afterFlexM, hfc, hso, not_true, if_false]
    rw [if_neg hi]
    intro hm
    rcases (mem_startPhase_events e i false [Event.findC false] _).mp (by simpa using hm)
      with h | h | h
    · simp at h
    · simp at h
    · simp at h
  · simp [afterFlexM, hso]

/-- C1 counterexample: in the name-in-use race the container is adopted by
a forced re-lookup (findForced, id "X"), yet because the created flag is set
unconditionally at the end of the create-if-absent block, the start failure
removes the adopted container — contradicting the claim that a container
adopted after the race is never removed. -/
theorem c1_counterexample :
    containerStartM engRaceStartFail specPlain [] =
      (.error .startFailed,
       [.findC false, .create, .findC true, .start "X", .remove "X", .unmountFlex]) ∧
      Event.remove "X" ∈ (containerStartM engRaceStartFail specPlain []).2 := by
  decide

/-- C1 (amended): when the start call fails, a container found by the
initial (cached) lookup is never removed; but whenever the initial lookup
produced no container — so the call went through the create path, whether
create succeeded or the container was adopted after a name-in-use race —
the started container is removed and an error is returned. -/
theorem c1_start_failure_removal (e : Engine) (spec : ContainerSpecM)
    (creds : List (String × String)) :
    (∀ i, e.findCached = .ok i → i ≠ "" →
       ∀ x, Event.remove x ∉ (containerStartM e spec creds).2) ∧
    ((e.findCached = .error .notFound ∨ e.findCached = .ok "") →
       ∀ c, Event.start c ∈ (containerStartM e spec creds).2 → e.startFails c = true →
         Event.remove c ∈ (containerStartM e spec creds).2 ∧
           ∃ er, (containerStartM e spec creds).1 = .error er) := by
  rcases hfm : e.flexMounts with u | bm
  · simp only [containerStartM_eq, hfm]
    constructor
    · intro i _ _ x
      simp
    · intro _ c hst _
      simp at hst
  · rcases haf : afterFlexM e spec creds with ⟨res, evs⟩
    rcases res with er | id
    · simp only [containerStartM_eq, hfm, haf]
      constructor
      · intro i hfc hi x
        have hx := afterFlexM_found_no_remove e spec creds i hfc hi x
        rw [haf] at hx
        simp only [List.mem_append] at *
        rintro (h | h)
        · exact hx h
        · simp at h
      · intro h0 c hst hf
        have hst' : Event.start c ∈ (afterFlexM e spec creds).2 := by
          rw [haf]
          rcases List.mem_append.mp hst with h | h
          · exact h
          · simp at h
        have hcoup := afterFlexM_coupling e spec creds c h0 hst' hf
        rw [haf] at hcoup
        exact ⟨List.mem_append.mpr (Or.inl hcoup.1), er, rfl⟩
    · simp only [containerStartM_eq, hfm, haf]
      constructor
      · intro i hfc hi x
        have hx := afterFlexM_found_no_remove e spec creds i hfc hi x
        rw [haf] at hx
        exact hx
      · intro h0 c hst hf
        have hcoup := afterFlexM_coupling e spec creds c h0 (by rw [haf]; exact hst) hf
        rw [haf] at hcoup
        rcases hcoup.2 with ⟨er, her⟩
        simp at her

/-- C1 witness: the amended theorem applied to the concrete race engine,
yielding the removal of the adopted container "X". -/
theorem c1_witness :
    Event.remove "X" ∈ (containerStartM engRaceStartFail specPlain []).2 := by
  exact (((c1_start_failure_removal engRaceStartFail specPlain []).2
    (Or.inl rfl)) "X" (by decide) (by decide)).1

/-- C3 (confirmed): when the initial lookup finds no container, the create
call fails with the name-in-use error, and the forced re-lookup resolves id
X, ContainerStart does not return the create error: it performs the forced
lookup, proceeds to start X, and on start success returns X. -/
theorem c3_name_in_use_adoption (e : Engine) (spec : ContainerSpecM)
    (creds : List (String × String)) (bm : List String) (X : String) (ce : CCErr)
    (hflex : e.flexMounts = .ok bm) (hso : e.specOk = true)
    (h0 : e.findCached = .error .notFound ∨ e.findCached = .ok "")
    (h2 : (createContainerM e spec (selectCredential creds spec.registryCredentialId)).1 =
      .error ce)
    (h3 : isNameInUse ce = true)
    (h4 : e.findForced = .ok X) :
    Event.findC true ∈ (containerStartM e spec creds).2 ∧
    Event.start X ∈ (containerStartM e spec creds).2 ∧
    (containerStartM e spec creds).1 ≠ .error (.creationFailed ce) ∧
    (e.startFails X = false → (containerStartM e spec creds).1 = .ok X) := by
  have hcp : createPathM e spec creds =
      startPhase e X true
        ((Event.findC false ::
          (createContainerM e spec (selectCredential creds spec.registryCredentialId)).2) ++
         [Event.findC true]) := by
    unfold createPathM refindAndStart
    simp [h2, h3, h4]
  have hafe : afterFlexM e spec creds = createPathM e spec creds := by
    rcases h0 with h0 | h0 <;> simp [afterFlexM, h0, hso]
  have hafs := hafe.trans hcp
  set evs1 :=
    (Event.findC false ::
      (createContainerM e spec (selectCredential creds spec.registryCredentialId)).2) ++
     [Event.findC true] with hevs1
  have hmem1 : Event.findC true ∈ (startPhase e X true evs1).2 :=
    (mem_startPhase_events e X true evs1 _).mpr (Or.inl (by simp [hevs1]))
  have hmem2 : Event.start X ∈ (startPhase e X true evs1).2 :=
    (mem_startPhase_events e X true evs1 _).mpr (Or.inr (Or.inl rfl))
  by_cases hSf : e.startFails X = false
  · have hres : (startPhase e X true evs1).1 = .ok X := startPhase_res_ok _ _ _ _ hSf
    have hcs : containerStartM e spec creds = (.ok X, (startPhase e X true evs1).2) := by
      rw [containerStartM_eq, hflex, hafs]
      rcases hx : startPhase e X true evs1 with ⟨r2, e2⟩
      rw [hx] at hres
      simp only at hres
      subst hres
      rfl
    rw [hcs]
    exact ⟨hmem1, hmem2, by simp, fun _ => rfl⟩
  · have hSf' : e.startFails X = true := by
      cases h : e.startFails X
      · exact absurd h hSf
      · rfl
    have hane : ∃ er2, (startPhase e X true evs1).1 = .error er2 := by
      rcases startPhase_res_of_fail e X true evs1 hSf' with h | h <;> exact ⟨_, h⟩
    rcases hane with ⟨er2, hres⟩
    have hcs : containerStartM e spec creds =
        (.error er2, (startPhase e X true evs1).2 ++ [Event.unmountFlex]) := by
      rw [containerStartM_eq, hflex, hafs]
      rcases hx : startPhase e X true evs1 with ⟨r2, e2⟩
      rw [hx] at hres
      simp only at hres
      subst hres
      rfl
    have her2 : er2 ≠ CSErr.creationFailed ce := by
      rcases startPhase_res_of_fail e X true evs1 hSf' with h | h <;> rw [hres] at h <;>
        simp at h <;> subst h <;> simp
    rw [hcs]
    refine ⟨List.mem_append.mpr (Or.inl hmem1), List.mem_append.mpr (Or.inl hmem2),
      (by simp [her2]), fun hcon => absurd hSf' (by simp [hcon])⟩

/-- C3 witness: the race engine with a successful start returns the
identifier "X" found by the forced lookup. -/
theorem c3_witness :
    (containerStartM engRaceStartOk specPlain []).1 = .ok "X" ∧
      Event.findC true ∈ (containerStartM engRaceStartOk specPlain []).2 := by
  have h := c3_name_in_use_adoption engRaceStartOk specPlain [] [] "X"
    (.createFailed .nameInUse) rfl rfl (Or.inl rfl) (by decide) (by decide) rfl
  exact ⟨h.2.2.2 rfl, h.1⟩

/-- C6 counterexample: no input whatsoever makes ContainerStart return the
UUID-parse error — the guard len(strings.Split(uuid, "-")) == 0 is
unreachable because Split with a non-empty separator never yields an empty
slice — so no specification with an "unparseable UUID" exists. -/
theorem c6_counterexample :
    ¬ ∃ (e : Engine) (spec : ContainerSpecM) (creds : List (String × String)),
        (containerStartM e spec creds).1 = .error .uuidParse := by
  rintro ⟨e, spec, creds, h⟩
  exact containerStartM_fst_ne_uuidParse e spec creds h

/-- C6 (amended): the name-derivation step never fails for any
specification: the UUID split is always non-empty, so ContainerStart never
returns the UUID-parse error, for well-formed and malformed UUID strings
alike. -/
theorem c6_uuid_guard_unreachable (spec : ContainerSpecM) (e : Engine)
    (creds : List (String × String)) :
    (goSplit '-' spec.uuid.data).length ≠ 0 ∧
      (containerStartM e spec creds).1 ≠ .error .uuidParse :=
  ⟨by simpa using goSplit_ne_nil '-' spec.uuid.data,
   containerStartM_fst_ne_uuidParse e spec creds⟩

/-- C6 witness: the amended theorem applied at a concrete engine and
specification. -/
theorem c6_witness :
    (containerStartM engBase specPlain []).1 ≠ .error .uuidParse :=
  (c6_uuid_guard_unreachable specPlain engBase []).2

/-- C7 counterexample: when setupRancherFlexVolume itself fails,
ContainerStart returns an error without invoking unmountRancherFlexVolume
(the unwind defer is registered only after that setup succeeds) — so the
unwind is not invoked on every error path. -/
theorem c7_counterexample :
    (containerStartM engFlexFail specPlain []).1 = .error .flexSetupFailed ∧
      Event.unmountFlex ∉ (containerStartM engFlexFail specPlain []).2 := by
  decide

/-- C7 (amended): whenever ContainerStart returns an error after the
managed-volume setup succeeded, unmountRancherFlexVolume runs last before
the return; on success it never runs; and when the managed-volume setup
itself fails, the error is returned with no unwind (and no other side
effect). -/
theorem c7_unwind_on_error (e : Engine) (spec : ContainerSpecM)
    (creds : List (String × String)) :
    (∀ bm, e.flexMounts = .ok bm → ∀ er, (containerStartM e spec creds).1 = .error er →
       (containerStartM e spec creds).2.getLast? = some Event.unmountFlex) ∧
    (∀ id, (containerStartM e spec creds).1 = .ok id →
       Event.unmountFlex ∉ (containerStartM e spec creds).2) ∧
    (∀ u, e.flexMounts = .error u →
       containerStartM e spec creds = (.error .flexSetupFailed, [])) := by
  rcases hfm : e.flexMounts with u | bm
  · simp only [containerStartM_eq, hfm]
    refine ⟨fun bm hbm => (by simp [hfm] at hbm), fun id hid => (by simp at hid),
      fun u2 _ => trivial⟩
  · rcases haf : afterFlexM e spec creds with ⟨res, evs⟩
    rcases res with er | id
    · simp only [containerStartM_eq, hfm, haf]
      refine ⟨fun _ _ _ _ => (by simp), fun id hid => (by simp at hid),
        fun u2 hu2 => (by simp [hfm] at hu2)⟩
    · simp only [containerStartM_eq, hfm, haf]
      refine ⟨fun _ _ er her => (by simp at her), fun id2 _ => ?_,
        fun u2 hu2 => (by simp [hfm] at hu2)⟩
      have := unmountFlex_notMem_afterFlexM e spec creds
      rw [haf] at this
      exact this

/-- C7 witness: the amended theorem applied to the engine whose flex-volume
setup fails. -/
theorem c7_witness :
    containerStartM engFlexFail specPlain [] = (.error .flexSetupFailed, []) :=
  (c7_unwind_on_error engFlexFail specPlain []).2.2 () rfl

/-- C2 counterexample: when the create attempt is rejected with
image-not-found and the on-demand pull then fails, createContainer returns
the pull error with no retried create at all — so the on-demand pull is not
always "followed by exactly one retried create". -/
theorem c2_counterexample :
    createContainerM engPullFail specPlain "cred" =
      (.error .pullImageFailed, [.create, .imagePull "cred"]) ∧
      (createContainerM engPullFail specPlain "cred").2.count Event.create = 1 := by
  decide

/-- C2 (amended): when the first create is rejected with image-not-found
(and the always-pull, if requested, succeeded so that the create was
reached), exactly one on-demand image pull with the supplied credential
occurs; if that pull succeeds, exactly one retried create follows and its
outcome — success or any failure — is returned with no further pull or
create attempt; if the pull fails, its error is returned with no retried
create. -/
theorem c2_image_missing_retry (e : Engine) (spec : ContainerSpecM) (cred : String)
    (hext : spec.externalId = "")
    (h1 : e.create1 = .error .imageNotFound)
    (hpa : mergedLabels spec pullImageLabels = "always" → e.instancePullOk = true) :
    (createContainerM e spec cred).2.count (Event.imagePull cred) = 1 ∧
    (e.imagePullOk = true →
      (createContainerM e spec cred).2.count Event.create = 2 ∧
      (∀ k, e.create2 = .error k →
        (createContainerM e spec cred).1 = .error (.createFailed k)) ∧
      (∀ i, e.create2 = .ok i → (createContainerM e spec cred).1 = .ok i)) ∧
    (e.imagePullOk = false →
      (createContainerM e spec cred).2.count Event.create = 1 ∧
      (createContainerM e spec cred).1 = .error .pullImageFailed) := by
  by_cases ha : mergedLabels spec pullImageLabels = "always"
  · have hip := hpa ha
    by_cases hpo : e.imagePullOk = true
    · rcases hc2 : e.create2 with k2 | i2 <;>
        simp [createContainerM, ha, hip, hext, h1, hpo, hc2, List.count_cons]
    · simp [createContainerM, ha, hip, hext, h1, hpo, List.count_cons]
  · by_cases hpo : e.imagePullOk = true
    · rcases hc2 : e.create2 with k2 | i2 <;>
        simp [createContainerM, ha, hext, h1, hpo, hc2, List.count_cons]
    · simp [createContainerM, ha, hext, h1, hpo, List.count_cons]

/-- C2 witness: the amended theorem applied to the engine whose retried
create fails again with image-not-found: one pull, two creates, fatal
error. -/
theorem c2_witness :
    (createContainerM engRetryFail specPlain "c").2.count Event.create = 2 ∧
      (createContainerM engRetryFail specPlain "c").1 =
        .error (.createFailed .imageNotFound) := by
  have h := c2_image_missing_retry engRetryFail specPlain "c" rfl rfl
    (fun hh => absurd hh (by decide))
  exact ⟨(h.2.1 rfl).1, (h.2.1 rfl).2.1 .imageNotFound rfl⟩

/-- C10 counterexample: a specification with a non-empty ExternalId and the
always-pull label, against an engine whose instance pull fails, makes
createContainer return the pull error — not the deleted-from-host error the
claim promises for every such specification. -/
theorem c10_counterexample :
    (createContainerM engInstancePullFail specExternal "c").1 = .error .pullInstanceFailed ∧
      (createContainerM engInstancePullFail specExternal "c").1 ≠
        .error (.deleted "Container E has been deleted from the host") := by
  decide

/-- C10 (amended): for every specification with a non-empty ExternalId,
createContainer never invokes the engine's create call; without the
always-pull label it returns the deleted-from-host error immediately, with
the always-pull label and a successful pull it returns that error after the
pull, and with the always-pull label and a failed pull it returns the pull
error instead. -/
theorem c10_external_id_rejection (e : Engine) (spec : ContainerSpecM) (cred : String)
    (hext : spec.externalId ≠ "") :
    Event.create ∉ (createContainerM e spec cred).2 ∧
    (mergedLabels spec pullImageLabels ≠ "always" →
      createContainerM e spec cred =
        (.error (.deleted ("Container " ++ spec.externalId ++ " has been deleted from the host")),
         [])) ∧
    (mergedLabels spec pullImageLabels = "always" → e.instancePullOk = true →
      createContainerM e spec cred =
        (.error (.deleted ("Container " ++ spec.externalId ++ " has been deleted from the host")),
         [.instancePull cred])) ∧
    (mergedLabels spec pullImageLabels = "always" → e.instancePullOk = false →
      (createContainerM e spec cred).1 = .error .pullInstanceFailed) := by
  by_cases ha : mergedLabels spec pullImageLabels = "always" <;>
    by_cases hpo : e.instancePullOk = true <;>
      simp [createContainerM, ha, hpo, hext]

/-- C10 witness: the amended theorem applied to the always-pull
specification with ExternalId "E" against the all-success engine. -/
theorem c10_witness :
    createContainerM engBase specExternal "c" =
      (.error (.deleted "Container E has been deleted from the host"),
       [.instancePull "c"]) := by
  have h := c10_external_id_rejection engBase specExternal "c" (by decide)
  simpa using h.2.2.1 (by decide) rfl

lemma portStep_fst (acc : (String → Bool) × (String → List PortBinding))
    (ep : PublicEndpoint) (k : String) :
    (portStep acc ep).1 k = (acc.1 k || contributes k ep) := by
  by_cases hz : ep.privatePort = 0
  · simp [portStep, contributes, hz]
  · by_cases hk : k = portKey ep.privatePort ep.protocol
    · simp [portStep, contributes, hz, hk]
    · simp [portStep, contributes, hz, hk, Ne.symm hk]

lemma portStep_snd (acc : (String → Bool) × (String → List PortBinding))
    (ep : PublicEndpoint) (k : String) :
    (portStep acc ep).2 k =
      acc.2 k ++ (if contributes k ep then [bindingOf ep] else []) := by
  by_cases hz : ep.privatePort = 0
  · simp [portStep, contributes, hz]
  · by_cases hk : k = portKey ep.privatePort ep.protocol
    · simp [portStep, contributes, hz, hk]
    · simp [portStep, contributes, hz, hk, Ne.symm hk]

lemma setupPorts_foldl (eps : List PublicEndpoint)
    (acc : (String → Bool) × (String → List PortBinding)) (k : String) :
    (eps.foldl portStep acc).1 k = (acc.1 k || eps.any (contributes k)) ∧
    (eps.foldl portStep acc).2 k =
      acc.2 k ++ (eps.filter (contributes k)).map bindingOf := by
  induction eps generalizing acc with
  | nil => simp
  | cons ep rest ih =>
    rw [List.foldl_cons]
    rcases ih (portStep acc ep) with ⟨ih1, ih2⟩
    constructor
    · rw [ih1, portStep_fst, List.any_cons, Bool.or_assoc]
    · rw [ih2, portStep_snd, List.filter_cons]
      by_cases hc : contributes k ep = true <;> simp [hc]

/-- C5 counterexample: an endpoint with private port 8080 and public port 0
(no public port given) still produces a host binding — with host port "0" —
so a binding is not produced "only when a public port is given". -/
theorem c5_counterexample :
    (setupPorts [⟨8080, 0, "tcp", ""⟩]).2 "8080/tcp" = [⟨"", "0"⟩] ∧
      (setupPorts [⟨8080, 0, "tcp", ""⟩]).1 "8080/tcp" = true := by
  decide

/-- C5 (amended): setupPorts exposes a port and appends a host binding for
every endpoint with a non-zero private port — the binding's host port being
the decimal rendering of the public port, even when the public port is
zero — with bindings for the same private port/protocol accumulating in
declaration order, and an endpoint with private port zero producing neither
an exposed port nor a binding. -/
theorem c5_port_translation (eps : List PublicEndpoint) (k : String) :
    (setupPorts eps).1 k = eps.any (contributes k) ∧
    (setupPorts eps).2 k = (eps.filter (contributes k)).map bindingOf := by
  rcases setupPorts_foldl eps (fun _ => false, fun _ => []) k with ⟨h1, h2⟩
  exact ⟨by simpa using h1, by simpa using h2⟩

lemma runCalls_cached (infoRoot r : String) (n : Nat) :
    runCalls infoRoot n (some r) = (List.replicate n r, some r, 0) := by
  induction n with
  | zero => rfl
  | succ m ih => simp [runCalls, getDockerRootCall, ih, List.replicate_succ]

lemma runCalls_none (infoRoot : String) (n : Nat) :
    (runCalls infoRoot n none).1 = List.replicate n infoRoot ∧
      (runCalls infoRoot n none).2.2 = min n 1 := by
  cases n with
  | zero => simp [runCalls]
  | succ m =>
    simp [runCalls, getDockerRootCall, runCalls_cached, List.replicate_succ,
      Nat.succ_min_succ]

lemma volStep_root_literal (managed : List String) (infoRoot : String) (st : Option String)
    (r : String) (st2 : Option String) (q : Nat)
    (h0 : managed.contains "/var/lib/docker" = false)
    (h1 : getDockerRootCall infoRoot st = (r, st2, q))
    (d : String) (hd : d = "/var/lib/docker:/var/lib/docker:rw" ∨
      d = "/var/lib/docker:/var/lib/docker") :
    (volStep managed infoRoot ⟨[], [], st, 0⟩ d).binds =
      (if r = "/var/lib/docker" then ["/var/lib/docker:/var/lib/docker:rw"]
       else [r ++ ":/var/lib/docker:rw", r ++ ":" ++ r ++ ":rw"]) ∧
    (volStep managed infoRoot ⟨[], [], st, 0⟩ d).cache = st2 ∧
    (volStep managed infoRoot ⟨[], [], st, 0⟩ d).queries = q := by
  have h0' : "/var/lib/docker" ∉ managed := by simpa using h0
  rcases hd with hd | hd <;> subst hd <;>
    by_cases hr : r = "/var/lib/docker" <;>
      simp [volStep, splitN3, goSplitN, breakAt, h0', h1, hr, String.append_assoc]

/-- C4 (confirmed): a data-volume declaration binding the literal docker
root onto itself (mode rw, explicit or defaulted) yields exactly the two
binds root:/var/lib/docker:rw and root:root:rw when the resolved root
differs from the literal path, and exactly the single unmodified bind when
it coincides; and the docker root is queried from the engine at most once,
every later call observing the first call's cached value. -/
theorem c4_root_bind_rewrite (vols : List VolumeM) (infoRoot : String) (st : Option String)
    (r : String) (st2 : Option String) (q : Nat)
    (h0 : (managedNames vols).contains "/var/lib/docker" = false)
    (h1 : getDockerRootCall infoRoot st = (r, st2, q)) :
    (r ≠ "/var/lib/docker" →
      (processDataVolumes vols infoRoot ["/var/lib/docker:/var/lib/docker:rw"] st).binds =
        [r ++ ":/var/lib/docker:rw", r ++ ":" ++ r ++ ":rw"] ∧
      (processDataVolumes vols infoRoot ["/var/lib/docker:/var/lib/docker"] st).binds =
        [r ++ ":/var/lib/docker:rw", r ++ ":" ++ r ++ ":rw"]) ∧
    (r = "/var/lib/docker" →
      (processDataVolumes vols infoRoot ["/var/lib/docker:/var/lib/docker:rw"] st).binds =
        ["/var/lib/docker:/var/lib/docker:rw"] ∧
      (processDataVolumes vols infoRoot ["/var/lib/docker:/var/lib/docker"] st).binds =
        ["/var/lib/docker:/var/lib/docker:rw"]) ∧
    (∀ n, (runCalls infoRoot n none).1 = List.replicate n infoRoot ∧
      (runCalls infoRoot n none).2.2 = min n 1) := by
  have e1 := volStep_root_literal (managedNames vols) infoRoot st r st2 q h0 h1
    "/var/lib/docker:/var/lib/docker:rw" (Or.inl rfl)
  have e2 := volStep_root_literal (managedNames vols) infoRoot st r st2 q h0 h1
    "/var/lib/docker:/var/lib/docker" (Or.inr rfl)
  refine ⟨fun hr => ?_, fun hr => ?_, runCalls_none infoRoot⟩
  · rw [if_neg hr] at e1 e2
    exact ⟨e1.1, e2.1⟩
  · rw [if_pos hr] at e1 e2
    exact ⟨e1.1, e2.1⟩

/-- C4 witness: the theorem applied concretely — resolved root /mnt/docker,
empty cache, no managed volumes — yielding the two rewritten binds. -/
theorem c4_witness :
    (processDataVolumes [] "/mnt/docker" ["/var/lib/docker:/var/lib/docker:rw"] none).binds =
      ["/mnt/docker:/var/lib/docker:rw", "/mnt/docker:/mnt/docker:rw"] := by
  have h := c4_root_bind_rewrite [] "/mnt/docker" none "/mnt/docker" (some "/mnt/docker") 1
    rfl rfl
  simpa using (h.1 (by decide)).1

lemma volumesFrom_foldl (idsMap : String → String) (dvf : List String) (acc : List String) :
    dvf.foldl (fun a v => if idsMap v ≠ "" then a ++ [idsMap v] else a) acc =
      acc ++ (dvf.filter (fun v => idsMap v != "")).map idsMap := by
  induction dvf generalizing acc with
  | nil => simp
  | cons v rest ih =>
    rw [List.foldl_cons, List.filter_cons]
    by_cases hv : idsMap v ≠ ""
    · rw [if_pos hv, ih]
      have hb : (idsMap v != "") = true := by simpa using hv
      simp [hb]
    · rw [if_neg hv, ih]
      have hb : (idsMap v != "") = false := by simpa using hv
      simp [hb]

/-- C8 (confirmed): the volumesFrom list computed by setupNonRancherVolumes
is exactly the idsMap image of the resolvable DataVolumesFrom references in
declaration order; unresolvable references (idsMap yields "") are silently
dropped and never produce an error. -/
theorem c8_volumes_from (idsMap : String → String) (dvf : List String) :
    computeVolumesFrom idsMap dvf = (dvf.filter (fun v => idsMap v != "")).map idsMap := by
  unfold computeVolumesFrom
  rw [volumesFrom_foldl]
  rcases h : (dvf.filter (fun v => idsMap v != "")).map idsMap with _ | ⟨a, rest⟩ <;> simp

/-- C9 (confirmed): the state query returns (false, false) without error for
an empty identifier, a not-found lookup, and a not-found inspection; any
other inspection or lookup failure is surfaced as the error; and the
running flag is true exactly when the container is running and not
restarting — a restarting container is reported as not running. -/
theorem c9_state_query (inspect : String → InspectRes) (id : String) :
    (isRunningM inspect "" = .ok (false, false)) ∧
    (id ≠ "" → inspect id = .notFound → isRunningM inspect id = .ok (false, false)) ∧
    (∀ m, id ≠ "" → inspect id = .err m → isRunningM inspect id = .error m) ∧
    (∀ r s, id ≠ "" → inspect id = .ok r s →
      isRunningM inspect id = .ok ((r && !s), s) ∧
        ((r && !s) = true ↔ (r = true ∧ s = false))) ∧
    (isContainerStartedM (.error .notFound) inspect = .ok (false, false)) ∧
    (∀ m, isContainerStartedM (.error (.other m)) inspect = .error m) ∧
    (∀ cid, isContainerStartedM (.ok cid) inspect = isRunningM inspect cid) := by
  refine ⟨by simp [isRunningM], fun hid hnf => ?_, fun m hid herr => ?_,
    fun r s hid hok => ?_, rfl, fun m => rfl, fun cid => rfl⟩
  · simp [isRunningM, hid, hnf]
  · simp [isRunningM, hid, herr]
  · refine ⟨by simp [isRunningM, hid, hok], ?_⟩
    cases r <;> cases s <;> simp

/-- C9 witness: the theorem applied to a concrete restarting container —
reported as not running — and to a concrete not-found inspection. -/
theorem c9_witness :
    isRunningM (fun _ => .ok true true) "abc" = .ok (false, true) ∧
      isRunningM (fun _ => .notFound) "abc" = .ok (false, false) := by
  refine ⟨?_, ?_⟩
  · exact ((c9_state_query (fun _ => .ok true true) "abc").2.2.2.1 true true
      (by decide) rfl).1
  · exact (c9_state_query (fun _ => .notFound) "abc").2.1 (by decide) rfl

end ContainerStartGo
